import Mathlib

/-!
Verification of the DolphinDB time-series storage layer and its migration
pipeline (`chanlun/db_dolphindb.py`, `chanlun/tools/migrate_to_dolphindb.py`).

Strings are modelled as lists of characters; the Python string operations
used by the code (`str.replace` with single-character arguments, `str.split`,
`'_'.join`, f-string concatenation) are embedded as the corresponding
list-of-character functions below.
-/

set_option autoImplicit false

/-- Strings of the embedded program, as lists of characters. -/
abbrev Str := List Char

/-- The separator used in table identifiers (Python `'_'`). -/
def usep : Char := '_'

/-- The dot character replaced during code normalization (Python `'.'`). -/
def dotc : Char := '.'

/-- Python `s.replace(a, b)` for single characters `a`, `b`. -/
def replaceChar (a b : Char) (s : Str) : Str :=
  s.map (fun c => if c = a then b else c)

/-- Python `s.split(sep)` for a single-character separator: the result is
always non-empty, and empty segments are kept. -/
def splitChar (sep : Char) : Str → List Str
  | [] => [[]]
  | c :: cs =>
    match splitChar sep cs with
    | [] => [[]]
    | s :: rest => if c = sep then [] :: s :: rest else (c :: s) :: rest

/-- Python `sep.join(parts)` for a single-character separator. -/
def joinChar (sep : Char) : List Str → Str
  | [] => []
  | [s] => s
  | s :: rest => s ++ sep :: joinChar sep rest

/-- `DolphinDB.klines_table_name`: normalize the code (`'.'` to `'_'`) and
concatenate market, normalized code and frequency with `'_'`
(source: `db_dolphindb.py`, lines 115-120). -/
def klines_table_name (market stock_code frequency : Str) : Str :=
  market ++ usep :: (replaceChar dotc usep stock_code ++ usep :: frequency)

/-- The (market, code, frequency) triple recovered from a legacy table name. -/
structure TableInfo where
  market : Str
  code : Str
  frequency : Str
deriving DecidableEq, Repr

/-- `DataMigrator.parse_table_info`: split on `'_'`; fewer than 3 segments is
a parse failure (the Python code returns an empty dict, modelled as `none`);
otherwise the market is the first segment, the frequency the last, and the
code the middle segments rejoined with `'_'` and then every `'_'` replaced
by `'.'` (source: `migrate_to_dolphindb.py`, lines 89-108). -/
def parse_table_info (table_name : Str) : Option TableInfo :=
  if (splitChar usep table_name).length < 3 then none
  else some
    { market := (splitChar usep table_name).headD []
      code := replaceChar usep dotc
        (joinChar usep (((splitChar usep table_name).drop 1).dropLast))
      frequency := (splitChar usep table_name).getLastD [] }

/-! ### Basic lemmas about `splitChar`, `joinChar`, `replaceChar` -/

theorem splitChar_ne_nil (sep : Char) (s : Str) : splitChar sep s ≠ [] := by
  induction s with
  | nil => simp [splitChar]
  | cons c cs ih =>
    simp only [splitChar]
    cases h : splitChar sep cs with
    | nil => exact absurd h ih
    | cons t ts =>
      by_cases hc : c = sep <;> simp [hc]

theorem splitChar_of_not_mem {sep : Char} {s : Str} (h : sep ∉ s) :
    splitChar sep s = [s] := by
  induction s with
  | nil => rfl
  | cons c cs ih =>
    have hc : c ≠ sep := fun hh => h (hh ▸ List.mem_cons_self c cs)
    have hcs : sep ∉ cs := fun hh => h (List.mem_cons_of_mem c hh)
    simp [splitChar, ih hcs, hc]

theorem splitChar_append (sep : Char) (a b : Str) :
    splitChar sep (a ++ sep :: b) = splitChar sep a ++ splitChar sep b := by
  induction a with
  | nil =>
    simp only [List.nil_append, splitChar]
    cases h : splitChar sep b with
    | nil => exact absurd h (splitChar_ne_nil sep b)
    | cons t ts => simp
  | cons c cs ih =>
    cases h : splitChar sep cs with
    | nil => exact absurd h (splitChar_ne_nil sep cs)
    | cons t ts =>
      have ih2 : splitChar sep (cs ++ sep :: b) = t :: (ts ++ splitChar sep b) := by
        rw [ih, h]
        rfl
      by_cases hc : c = sep <;>
        simp [splitChar, ih2, h, hc]

theorem joinChar_splitChar (sep : Char) (s : Str) :
    joinChar sep (splitChar sep s) = s := by
  induction s with
  | nil => rfl
  | cons c cs ih =>
    simp only [splitChar]
    cases h : splitChar sep cs with
    | nil => exact absurd h (splitChar_ne_nil sep cs)
    | cons t ts =>
      rw [h] at ih
      by_cases hc : c = sep
      · subst hc
        simp only [if_pos rfl]
        cases ts with
        | nil => simpa [joinChar] using congrArg (c :: ·) ih
        | cons t2 ts2 => simpa [joinChar] using congrArg (c :: ·) ih
      · simp only [if_neg hc]
        cases ts with
        | nil => simpa [joinChar] using congrArg (c :: ·) ih
        | cons t2 ts2 => simpa [joinChar] using congrArg (c :: ·) ih

theorem replaceChar_left_inverse {a b : Char} (hab : a ≠ b) {s : Str}
    (h : b ∉ s) : replaceChar b a (replaceChar a b s) = s := by
  induction s with
  | nil => rfl
  | cons c cs ih =>
    have hc : c ≠ b := fun hh => h (hh ▸ List.mem_cons_self c cs)
    have hcs : b ∉ cs := fun hh => h (List.mem_cons_of_mem c hh)
    simp only [replaceChar, List.map_cons] at *
    by_cases hca : c = a
    · subst hca
      simp [ih hcs, hab.symm]
    · simp [hca, hc, ih hcs]

/-! ### Claim C2: injectivity of the table-identifier function -/

/-- C2 counterexample: the claim says two distinct code strings never map to
the same table identifier, but the codes `"a.b"` and `"a_b"` are distinct and
produce the identical identifier `"m_a_b_d"`; no collision check exists in
the code. -/
theorem c2_counterexample :
    klines_table_name ("m".toList) ("a.b".toList) ("d".toList) =
      klines_table_name ("m".toList) ("a_b".toList) ("d".toList) ∧
    ("a.b".toList) ≠ ("a_b".toList) := by
  constructor
  · rfl
  · decide

/-- C2 amended: for a fixed market and frequency, the table-identifier
function is injective on codes that contain no underscore character
(codes differing only in `'.'` versus `'_'` silently collide). -/
theorem c2_amended (market frequency c1 c2 : Str)
    (h1 : usep ∉ c1) (h2 : usep ∉ c2)
    (heq : klines_table_name market c1 frequency =
      klines_table_name market c2 frequency) : c1 = c2 := by
  unfold klines_table_name at heq
  have h3 := List.append_cancel_left heq
  have h4 : replaceChar dotc usep c1 ++ usep :: frequency =
      replaceChar dotc usep c2 ++ usep :: frequency := by
    simpa using h3
  have h5 := List.append_cancel_right h4
  have hda : dotc ≠ usep := by decide
  calc c1 = replaceChar usep dotc (replaceChar dotc usep c1) :=
        (replaceChar_left_inverse hda h1).symm
    _ = replaceChar usep dotc (replaceChar dotc usep c2) := by rw [h5]
    _ = c2 := replaceChar_left_inverse hda h2

/-- C2 amended witness at a concrete input. -/
theorem c2_amended_witness :
    ("600000.SH".toList) = ("600000.SH".toList) :=
  c2_amended ("a".toList) ("d".toList) ("600000.SH".toList) ("600000.SH".toList)
    (by decide) (by decide) rfl

/-! ### Claim C3: parsing inverts table-identifier formation -/

/-- C3 counterexample: for market `"a"`, code `"x_y"` and frequency `"d"`,
parsing the generated table name does not recover the original code: the
underscore of the code is denormalized into a dot, yielding `"x.y"`. -/
theorem c3_counterexample :
    parse_table_info
        (klines_table_name ("a".toList) ("x_y".toList) ("d".toList)) ≠
      some { market := ("a".toList), code := ("x_y".toList),
             frequency := ("d".toList) } := by
  decide

/-- C3 amended: whenever the market, the original code and the frequency
contain no underscore character (dots in the code are allowed), parsing the
generated table name recovers exactly the original triple. -/
theorem c3_amended (market code frequency : Str)
    (hm : usep ∉ market) (hc : usep ∉ code) (hf : usep ∉ frequency) :
    parse_table_info (klines_table_name market code frequency) =
      some { market := market, code := code, frequency := frequency } := by
  have hparts : splitChar usep (klines_table_name market code frequency) =
      market :: (splitChar usep (replaceChar dotc usep code) ++ [frequency]) := by
    unfold klines_table_name
    rw [splitChar_append, splitChar_of_not_mem hm,
      splitChar_append, splitChar_of_not_mem hf]
    simp
  have hne := splitChar_ne_nil usep (replaceChar dotc usep code)
  have hlen : 1 ≤ (splitChar usep (replaceChar dotc usep code)).length :=
    Nat.one_le_iff_ne_zero.mpr (fun hz => hne (List.length_eq_zero.mp hz))
  have hnotlt : ¬ (splitChar usep
      (klines_table_name market code frequency)).length < 3 := by
    rw [hparts]
    simp only [List.length_cons, List.length_append]
    simp
    omega
  have hmid : ((splitChar usep
      (klines_table_name market code frequency)).drop 1).dropLast =
      splitChar usep (replaceChar dotc usep code) := by
    rw [hparts]
    simp [List.dropLast_concat]
  have hlast : (splitChar usep
      (klines_table_name market code frequency)).getLastD [] = frequency := by
    rw [hparts]
    cases hsp : splitChar usep (replaceChar dotc usep code) with
    | nil => exact absurd hsp hne
    | cons t ts =>
      have hre : market :: ((t :: ts) ++ [frequency]) =
          (market :: t :: ts) ++ [frequency] := by simp
      rw [hre, List.getLastD_concat]
  have hhead : (splitChar usep
      (klines_table_name market code frequency)).headD [] = market := by
    rw [hparts]
    rfl
  unfold parse_table_info
  rw [if_neg hnotlt, hmid, hlast, hhead, joinChar_splitChar]
  have hda : dotc ≠ usep := by decide
  rw [replaceChar_left_inverse hda hc]

/-- C3 amended witness at a concrete input. -/
theorem c3_amended_witness :
    parse_table_info
        (klines_table_name ("a".toList) ("600000.SH".toList) ("d".toList)) =
      some { market := ("a".toList), code := ("600000.SH".toList),
             frequency := ("d".toList) } :=
  c3_amended ("a".toList) ("600000.SH".toList) ("d".toList)
    (by decide) (by decide) (by decide)

/-! ### The DolphinDB store state

The storage engine is reached through a session: kline tables are session
variables bound by `createTable` scripts and by `session.upload`, the cache
table `cl_cache` and the instrument table `cl_stock_info` are fixed tables.
Timestamps are epoch seconds (`Int`), doubles are `Rat`, `LONG` is `Int`.
-/

/-- `Market.FUTURES.value`.  Modelled from the spec: `chanlun/base.py` is not
part of the sources; the spec's market list and the migration CLI name the
futures market `"futures"`. -/
def futuresStr : Str := "futures".toList

/-- One bar object / stored kline row.  `p` (open interest) is `none` when
the attribute/column is absent. -/
structure KLine where
  code : Str
  dt : Int
  f : Str
  o : Rat
  c : Rat
  h : Rat
  l : Rat
  v : Int
  a : Rat
  p : Option Rat
deriving DecidableEq, Repr

/-- A kline table bound in the session: its rows plus whether the schema has
the open-interest column `p` (futures only). -/
structure KTable where
  hasP : Bool
  rows : List KLine
deriving DecidableEq, Repr

/-- One row of the fixed cache table `cl_cache`. -/
structure CacheRow where
  k : Str
  v : Str
  expire : Int
deriving DecidableEq, Repr

/-- One row of the fixed instrument table `cl_stock_info` (all 23 columns). -/
structure StockRow where
  market : Str
  code : Str
  name : Str
  industry : Str
  concept : Str
  total_share : Rat
  flow_share : Rat
  total_assets : Rat
  liquid_assets : Rat
  fixed_assets : Rat
  reserved : Rat
  reserved_pershare : Rat
  esp : Rat
  bvps : Rat
  pb : Rat
  pe : Rat
  undp : Rat
  perundp : Rat
  rev : Rat
  profit : Rat
  gpr : Rat
  npr : Rat
  holders : Rat
deriving DecidableEq, Repr

/-- An instrument object passed to `stock_info_insert`: `code` and `name` are
accessed directly, every other attribute is read with `getattr(info, _, d)`
and may be absent (`none`). -/
structure StockInfo where
  code : Str
  name : Str
  industry : Option Str
  concept : Option Str
  total_share : Option Rat
  flow_share : Option Rat
  total_assets : Option Rat
  liquid_assets : Option Rat
  fixed_assets : Option Rat
  reserved : Option Rat
  reserved_pershare : Option Rat
  esp : Option Rat
  bvps : Option Rat
  pb : Option Rat
  pe : Option Rat
  undp : Option Rat
  perundp : Option Rat
  rev : Option Rat
  profit : Option Rat
  gpr : Option Rat
  npr : Option Rat
  holders : Option Rat
deriving DecidableEq, Repr

/-- The state of the target store: the session's kline-table bindings, the
cache table and the instrument table. -/
structure DDBState where
  ktables : Str → Option KTable
  cache : List CacheRow
  stock : List StockRow

/-- Rebind one kline-table name in the session. -/
def DDBState.setK (s : DDBState) (name : Str) (t : KTable) : DDBState :=
  { s with ktables := fun n => if n = name then some t else s.ktables n }

/-- The state with no kline tables and empty cache / instrument tables. -/
def freshState : DDBState :=
  { ktables := fun _ => none, cache := [], stock := [] }

/-- `DolphinDB._create_database`: the script drops the whole database when it
already exists and creates a new empty one, so every kline table kept in it
is erased (source: `db_dolphindb.py`, lines 43-61). -/
def ddb_create_database (s : DDBState) : DDBState :=
  { s with ktables := fun _ => none }

/-- `DolphinDB._init_tables`: drop-then-recreate `cl_cache` and
`cl_stock_info`, leaving both empty (source: `db_dolphindb.py`, lines
63-113). -/
def ddb_init_tables (s : DDBState) : DDBState :=
  { s with cache := [], stock := [] }

/-- `DolphinDB.__init__`: connect, then `_create_database`, then
`_init_tables` (source: `db_dolphindb.py`, lines 25-41). -/
def dolphindb_init (s : DDBState) : DDBState :=
  ddb_init_tables (ddb_create_database s)

/-! ### KLine Store operations -/

/-- `DolphinDB.create_klines_table`: drop-then-create the table with the
base schema, extended by the open-interest column `p` when the market is
futures (source: `db_dolphindb.py`, lines 122-156). -/
def create_klines_table (s : DDBState) (market stock_code frequency : Str) :
    DDBState :=
  s.setK (klines_table_name market stock_code frequency)
    { hasP := decide (market = futuresStr), rows := [] }

/-- The row built by `klines_insert`'s `data_dict` from one input bar: the
nine base columns always, plus `p = getattr(k, 'p', 0)` only for the futures
market. -/
def insertRow (market : Str) (k : KLine) : KLine :=
  { k with p := if market = futuresStr then some (k.p.getD 0) else none }

/-- `DolphinDB.klines_insert`: no-op on an empty list; ensure the table
exists; `session.upload({table_name: df})` rebinds the session variable
carrying the table's own name to the uploaded data frame; then
`insert into table_name select * from table_name` appends a snapshot of that
variable to itself (source: `db_dolphindb.py`, lines 158-193). -/
def klines_insert (s : DDBState) (market stock_code frequency : Str)
    (klines : List KLine) : DDBState :=
  if klines = [] then s
  else
    have name := klines_table_name market stock_code frequency
    have s1 := if (s.ktables name).isSome then s
      else create_klines_table s market stock_code frequency
    have df : KTable :=
      { hasP := decide (market = futuresStr)
        rows := klines.map (insertRow market) }
    have s2 := s1.setK name df
    have t := (s2.ktables name).getD df
    s2.setK name { t with rows := t.rows ++ t.rows }

/-- Insertion into a list sorted by ascending timestamp. -/
def insByDt (r : KLine) : List KLine → List KLine
  | [] => [r]
  | x :: xs => if r.dt ≤ x.dt then r :: x :: xs else x :: insByDt r xs

/-- The engine's `order by dt asc` over a kline table. -/
def sortByDtAsc : List KLine → List KLine
  | [] => []
  | x :: xs => insByDt x (sortByDtAsc xs)

/-- Order token `"asc"`. -/
def ascStr : Str := "asc".toList

/-- Order token `"desc"`. -/
def descStr : Str := "desc".toList

/-- A date bound formatted with `strftime('%Y.%m.%d')` and compared against
a `DATETIME` column: the bound is truncated to midnight of its calendar day
(epoch seconds, day = 86400 seconds). -/
def dayFloor (t : Int) : Int := t - t % 86400

/-- `DolphinDB.klines_query`: empty result when the table does not exist;
optional day-truncated bounds; `order by dt`; `limit` only when the Python
value is truthy (`None` and `0` both mean no limit); rows are converted back
to bar objects, the open-interest attribute being set only when the market
is futures and the table has the `p` column (source: `db_dolphindb.py`,
lines 195-250). -/
def klines_query (s : DDBState) (market stock_code frequency : Str)
    (start_date end_date : Option Int) (limit : Option Nat) (order : Str) :
    List KLine :=
  match s.ktables (klines_table_name market stock_code frequency) with
  | none => []
  | some t =>
    have rows := t.rows.filter (fun r =>
      (match start_date with
        | none => true
        | some sd => decide (dayFloor sd ≤ r.dt)) &&
      (match end_date with
        | none => true
        | some ed => decide (r.dt ≤ dayFloor ed)))
    have sorted := if order = descStr then (sortByDtAsc rows).reverse
      else sortByDtAsc rows
    have limited := match limit with
      | none => sorted
      | some n => if n = 0 then sorted else sorted.take n
    limited.map (fun r =>
      { r with p := if market = futuresStr ∧ t.hasP = true then r.p else none })

/-- The cell produced by the engine for `select max(dt) from t`: a single
row whose value is SQL `NULL` (absent) when the table is empty. -/
def sqlMaxCell (l : List Int) : Option Int :=
  match l with
  | [] => none
  | a :: as => some (as.foldl max a)

/-- `DolphinDB.query_klines_last_datetime`: `None` when the table does not
exist; otherwise run `select max(dt) as max_dt`, whose one-row result always
passes the `len(result) > 0` check, and return its single cell (source:
`db_dolphindb.py`, lines 252-266). -/
def query_klines_last_datetime (s : DDBState)
    (market stock_code frequency : Str) : Option Int :=
  match s.ktables (klines_table_name market stock_code frequency) with
  | none => none
  | some t => sqlMaxCell (t.rows.map (fun r => r.dt))

/-! ### Cache Store operations -/

/-- `DolphinDB.cache_set`: delete every row with this key, then upload the
one-row frame under the staging name `cache_data` and append it to
`cl_cache` (source: `db_dolphindb.py`, lines 277-292). -/
def cache_set (s : DDBState) (key value : Str) (expire : Int) : DDBState :=
  { s with cache :=
      s.cache.filter (fun r => !(decide (r.k = key))) ++
        [{ k := key, v := value, expire := expire }] }

/-- `DolphinDB.cache_get`: select the rows with this key whose expiry is 0
or beyond the current time, and return the value of the first one, `None`
when there is none (source: `db_dolphindb.py`, lines 294-304). -/
def cache_get (s : DDBState) (key : Str) (now : Int) : Option Str :=
  match s.cache.filter (fun r =>
      decide (r.k = key) &&
        (decide (r.expire = 0) || decide (r.expire > now))) with
  | [] => none
  | r :: _ => some r.v

/-! ### Reference Store operations -/

/-- The stored row built from one instrument object: absent attributes fall
back to `''` for strings and `0` for numerics; the `market` column is the
call's market argument. -/
def toStockRow (market : Str) (info : StockInfo) : StockRow :=
  { market := market
    code := info.code
    name := info.name
    industry := info.industry.getD []
    concept := info.concept.getD []
    total_share := info.total_share.getD 0
    flow_share := info.flow_share.getD 0
    total_assets := info.total_assets.getD 0
    liquid_assets := info.liquid_assets.getD 0
    fixed_assets := info.fixed_assets.getD 0
    reserved := info.reserved.getD 0
    reserved_pershare := info.reserved_pershare.getD 0
    esp := info.esp.getD 0
    bvps := info.bvps.getD 0
    pb := info.pb.getD 0
    pe := info.pe.getD 0
    undp := info.undp.getD 0
    perundp := info.perundp.getD 0
    rev := info.rev.getD 0
    profit := info.profit.getD 0
    gpr := info.gpr.getD 0
    npr := info.npr.getD 0
    holders := info.holders.getD 0 }

/-- `DolphinDB.stock_info_insert`: no-op on empty input; otherwise delete
every row of this market from `cl_stock_info`, then append the converted
rows (source: `db_dolphindb.py`, lines 306-346). -/
def stock_info_insert (s : DDBState) (market : Str)
    (stock_infos : List StockInfo) : DDBState :=
  if stock_infos = [] then s
  else { s with stock :=
    s.stock.filter (fun r => !(decide (r.market = market))) ++
      stock_infos.map (toStockRow market) }

/-- `DolphinDB.stock_info_query`: all rows of the market, further filtered
by code only when the Python `code` argument is truthy (`None` and `''` mean
no code filter); rows convert back to objects field by field (source:
`db_dolphindb.py`, lines 348-388). -/
def stock_info_query (s : DDBState) (market : Str) (code : Option Str) :
    List StockRow :=
  s.stock.filter (fun r =>
    decide (r.market = market) &&
      (match code with
        | none => true
        | some c => decide (c = []) || decide (r.code = c)))

/-! ### Claim C5: cache TTL semantics -/

theorem cache_deleted_key_filter (l : List CacheRow) (key : Str) (now : Int) :
    (l.filter (fun r => !(decide (r.k = key)))).filter (fun r =>
      decide (r.k = key) &&
        (decide (r.expire = 0) || decide (r.expire > now))) = [] := by
  induction l with
  | nil => rfl
  | cons r rs ih =>
    by_cases hk : r.k = key
    · simpa [List.filter, hk] using ih
    · simpa [List.filter, hk] using ih

/-- C5: after `cache_set(key, value, expire)`, `cache_get(key)` at current
time `now` returns the value exactly when `expire = 0` or `expire > now`,
and returns absent otherwise. -/
theorem c5_cache_ttl (s : DDBState) (key value : Str) (expire now : Int) :
    cache_get (cache_set s key value expire) key now =
      if expire = 0 ∨ expire > now then some value else none := by
  unfold cache_get cache_set
  simp only [List.filter_append, cache_deleted_key_filter, List.nil_append]
  by_cases h0 : expire = 0
  · simp [List.filter, h0]
  · by_cases h1 : expire > now
    · simp [List.filter, h0, h1]
    · simp [List.filter, h0, h1]

/-! ### Claim C9: last-timestamp query -/

/-- Modelled from the spec's words: "the maximum timestamp in the table, or
absent if the table does not exist or is empty" — the maximum computed by a
right fold over the stored timestamps. -/
def specMaxTs (l : List Int) : Option Int :=
  l.foldr (fun d acc =>
    match acc with
    | none => some d
    | some m => some (max d m)) none

/-- Modelled from the spec's words: `lastTimestamp` on the table contents. -/
def spec_lastTimestamp (tbl : Option KTable) : Option Int :=
  match tbl with
  | none => none
  | some t => specMaxTs (t.rows.map (fun r => r.dt))

theorem foldl_max_pull (bs : List Int) (a b : Int) :
    bs.foldl max (max a b) = max a (bs.foldl max b) := by
  induction bs generalizing b with
  | nil => rfl
  | cons c cs ih =>
    simp only [List.foldl_cons]
    rw [max_assoc, ih]

theorem specMaxTs_cons (a : Int) (as : List Int) :
    specMaxTs (a :: as) = some (as.foldl max a) := by
  induction as generalizing a with
  | nil => rfl
  | cons b bs ih =>
    simp only [specMaxTs, List.foldr_cons] at *
    rw [ih b]
    simp only [List.foldl_cons]
    rw [foldl_max_pull]

/-- C9: `query_klines_last_datetime` returns the maximum timestamp over the
bars stored in the table of (market, code, frequency), and returns absent
both when that table does not exist and when it exists but has no rows. -/
theorem c9_last_datetime (s : DDBState) (market stock_code frequency : Str) :
    query_klines_last_datetime s market stock_code frequency =
      spec_lastTimestamp
        (s.ktables (klines_table_name market stock_code frequency)) := by
  unfold query_klines_last_datetime spec_lastTimestamp
  cases s.ktables (klines_table_name market stock_code frequency) with
  | none => rfl
  | some t =>
    simp only []
    cases hr : t.rows with
    | nil => rfl
    | cons r rs =>
      simp only [List.map_cons, sqlMaxCell, specMaxTs_cons]

/-! ### Claim C10: the constructor erases the store -/

/-- C10: constructing the store handle (`DolphinDB.__init__`) from any prior
engine state drops the database (erasing every kline table) and
drops-then-recreates the cache and instrument tables, so the resulting state
holds no bars, no cache entries and no instruments. -/
theorem c10_init_destroys (s : DDBState) :
    dolphindb_init s = freshState ∧
    (∀ n, (dolphindb_init s).ktables n = none) ∧
    (dolphindb_init s).cache = [] ∧
    (dolphindb_init s).stock = [] :=
  ⟨rfl, fun _ => rfl, rfl, rfl⟩

/-! ### Claim C4: insert/query round-trip -/

/-- A sample bar for the failing input of C4. -/
def bar1 : KLine :=
  { code := "600000.SH".toList, dt := 1, f := "d".toList,
    o := 1, c := 2, h := 3, l := 1, v := 10, a := 5, p := none }

/-- C4 (code bug): inserting one bar for (market `"a"`, code `"600000.SH"`,
frequency `"d"`) into an initially absent table and querying with no filters
and no limit returns 2 bars, not 1: `klines_insert` uploads the data frame
under the session name of the table itself and then runs
`insert into T select * from T`, so the freshly bound frame is appended to
itself (and any previously stored rows would be discarded). -/
theorem c4_insert_query_doubles :
    (klines_query
        (klines_insert freshState ("a".toList) ("600000.SH".toList)
          ("d".toList) [bar1])
        ("a".toList) ("600000.SH".toList) ("d".toList)
        none none none ascStr).length = 2 ∧
    ¬ ((klines_query
        (klines_insert freshState ("a".toList) ("600000.SH".toList)
          ("d".toList) [bar1])
        ("a".toList) ("600000.SH".toList) ("d".toList)
        none none none ascStr).length = 1) := by
  constructor
  · rfl
  · decide

/-! ### Claim C6: replace-the-market semantics -/

theorem filter_filter_of_imp {α : Type} (p q : α → Bool) (l : List α)
    (h : ∀ x, q x = true → p x = true) :
    (l.filter p).filter q = l.filter q := by
  induction l with
  | nil => rfl
  | cons x xs ih =>
    by_cases hq : q x = true
    · have hp := h x hq
      simp [List.filter, hp, hq, ih]
    · by_cases hp : p x = true
      · simp [List.filter, hp, hq, ih]
      · simp [List.filter, hp, hq, ih]

theorem stock_deleted_market_query (m : Str) (g : StockRow → Bool)
    (l : List StockRow) :
    ((l.filter (fun r => !(decide (r.market = m)))).filter
      (fun r => decide (r.market = m) && g r)) = [] := by
  induction l with
  | nil => rfl
  | cons x xs ih =>
    by_cases hx : x.market = m
    · simp [List.filter, hx, ih]
    · simp [List.filter, hx, ih]

theorem stock_mapped_filter_all (m : Str) (q : StockRow → Bool)
    (l : List StockInfo) (h : ∀ i, q (toStockRow m i) = true) :
    (l.map (toStockRow m)).filter q = l.map (toStockRow m) := by
  induction l with
  | nil => rfl
  | cons i is ih => simp [List.filter, h i, ih]

theorem stock_mapped_filter_none (m : Str) (q : StockRow → Bool)
    (l : List StockInfo) (h : ∀ i, q (toStockRow m i) = false) :
    (l.map (toStockRow m)).filter q = [] := by
  induction l with
  | nil => rfl
  | cons i is ih => simp [List.filter, h i, ih]

theorem stock_insert_twice_stock (s : DDBState) (m : Str)
    (i1 i2 : List StockInfo) (h1 : i1 ≠ []) (h2 : i2 ≠ []) :
    (stock_info_insert (stock_info_insert s m i1) m i2).stock =
      s.stock.filter (fun r => !(decide (r.market = m))) ++
        i2.map (toStockRow m) := by
  unfold stock_info_insert
  rw [if_neg h1, if_neg h2]
  simp only [List.filter_append]
  rw [filter_filter_of_imp _ _ s.stock (fun x hx => hx)]
  rw [stock_mapped_filter_none m _ i1 (fun i => by simp [toStockRow])]
  simp

/-- C6: for every non-empty instrument lists `i1`, `i2`, after
`stock_info_insert(m, i1)` followed by `stock_info_insert(m, i2)`, querying
market `m` returns exactly the converted rows of `i2` (every instrument of
`i1` absent from `i2` is gone), and any query on a different market `m'` is
unaffected. -/
theorem c6_replace_market (s : DDBState) (m m' : Str)
    (i1 i2 : List StockInfo) (c : Option Str)
    (h1 : i1 ≠ []) (h2 : i2 ≠ []) (hm : m' ≠ m) :
    stock_info_query
        (stock_info_insert (stock_info_insert s m i1) m i2) m none =
      i2.map (toStockRow m) ∧
    stock_info_query
        (stock_info_insert (stock_info_insert s m i1) m i2) m' c =
      stock_info_query s m' c := by
  have key := stock_insert_twice_stock s m i1 i2 h1 h2
  constructor
  · unfold stock_info_query
    rw [key, List.filter_append]
    rw [stock_deleted_market_query m _ s.stock]
    rw [stock_mapped_filter_all m _ i2 (fun i => by simp [toStockRow])]
    simp
  · unfold stock_info_query
    rw [key, List.filter_append]
    have hdrop : (i2.map (toStockRow m)).filter (fun r =>
        decide (r.market = m') &&
          (match c with
            | none => true
            | some cc => decide (cc = []) || decide (r.code = cc))) = [] := by
      refine stock_mapped_filter_none m _ i2 (fun i => ?_)
      have : (toStockRow m i).market = m := rfl
      simp only [this, Bool.and_eq_false_iff, decide_eq_false_iff_not]
      exact Or.inl (fun hh => hm hh.symm)
    rw [hdrop, List.append_nil]
    rw [filter_filter_of_imp _ _ s.stock]
    intro x hx
    have hxm : x.market = m' := by
      have := (Bool.and_eq_true _ _).mp hx
      exact of_decide_eq_true this.1
    simp [hxm, fun hh : m' = m => hm hh]

/-- C6 witness: a fresh instrument object with only the required attributes. -/
def mkInfo (code : Str) : StockInfo :=
  { code := code, name := code, industry := none, concept := none,
    total_share := none, flow_share := none, total_assets := none,
    liquid_assets := none, fixed_assets := none, reserved := none,
    reserved_pershare := none, esp := none, bvps := none, pb := none,
    pe := none, undp := none, perundp := none, rev := none, profit := none,
    gpr := none, npr := none, holders := none }

/-- C6 witness at a concrete input: replace market `"a"` by `[A,B]` then by
`[B,C]`; the query returns exactly `[B,C]` and market `"b"` is untouched. -/
theorem c6_replace_market_witness :
    stock_info_query
        (stock_info_insert
          (stock_info_insert freshState ("a".toList)
            [mkInfo ("A".toList), mkInfo ("B".toList)])
          ("a".toList) [mkInfo ("B".toList), mkInfo ("C".toList)])
        ("a".toList) none =
      [mkInfo ("B".toList), mkInfo ("C".toList)].map (toStockRow ("a".toList)) ∧
    stock_info_query
        (stock_info_insert
          (stock_info_insert freshState ("a".toList)
            [mkInfo ("A".toList), mkInfo ("B".toList)])
          ("a".toList) [mkInfo ("B".toList), mkInfo ("C".toList)])
        ("b".toList) none =
      stock_info_query freshState ("b".toList) none :=
  c6_replace_market freshState ("a".toList) ("b".toList)
    [mkInfo ("A".toList), mkInfo ("B".toList)]
    [mkInfo ("B".toList), mkInfo ("C".toList)] none
    (by decide) (by decide) (by decide)

/-! ### The migration pipeline (`migrate_to_dolphindb.py`)

The legacy relational source is a row-producing collaborator: the discovered
kline tables (in discovery order), the per-market instrument tables and the
legacy cache rows.
-/

/-- One row of a legacy kline table: the nine columns read by the conversion
loop; `a` may be a missing column (`row.get('a', 0)`), `p` may be absent. -/
structure SrcBar where
  code : Str
  dt : Int
  f : Str
  o : Rat
  c : Rat
  h : Rat
  l : Rat
  v : Int
  a : Option Rat
  p : Option Rat
deriving DecidableEq, Repr

/-- A legacy kline table, addressed by its table name. -/
structure LegacyKTable where
  name : Str
  rows : List SrcBar
deriving DecidableEq, Repr

/-- The legacy relational source. -/
structure LegacySource where
  ktables : List LegacyKTable
  stockTables : List (Str × List StockInfo)
  cacheRows : List CacheRow
deriving DecidableEq, Repr

/-- The per-unit result dictionary built by the migrator. -/
structure UnitResult where
  success : Bool
  table : Option Str
  market : Option Str
  code : Option Str
  frequency : Option Str
  count : Option Nat
  inserted : Option Nat
  dry_run : Bool
  message : Option Str
  error : Option Str
deriving DecidableEq, Repr

/-- A result dictionary before any key is set (absent keys are `none`). -/
def baseResult : UnitResult :=
  { success := true, table := none, market := none, code := none,
    frequency := none, count := none, inserted := none, dry_run := false,
    message := none, error := none }

/-- Error text `f'无法解析表名: {table_name}'`. -/
def errCannotParse (t : Str) : Str := ("无法解析表名: ".toList) ++ t

/-- Message `'表为空，跳过'`. -/
def msgEmptySkip : Str := "表为空，跳过".toList

/-- Message `f'股票信息表 {info_table} 不存在，跳过'`. -/
def msgStockAbsent (t : Str) : Str :=
  ("股票信息表 ".toList) ++ t ++ (" 不存在，跳过".toList)

/-- The `ValueError` text raised by `range(0, n, 0)` and captured by the
unit's exception handler. -/
def msgBatchZero : Str := "range() arg 3 must not be zero".toList

/-- Insertion into a list of source rows sorted by ascending timestamp. -/
def insSrcByDt (r : SrcBar) : List SrcBar → List SrcBar
  | [] => [r]
  | x :: xs => if r.dt ≤ x.dt then r :: x :: xs else x :: insSrcByDt r xs

/-- The source's `SELECT * FROM t ORDER BY dt`. -/
def sortSrcByDtAsc : List SrcBar → List SrcBar
  | [] => []
  | x :: xs => insSrcByDt x (sortSrcByDtAsc xs)

/-- The conversion of one source row into a bar object: defaulted `a`, and
the open-interest attribute set only for the futures market when the source
column is present. -/
def convertRow (market : Str) (r : SrcBar) : KLine :=
  { code := r.code, dt := r.dt, f := r.f, o := r.o, c := r.c, h := r.h,
    l := r.l, v := r.v, a := r.a.getD 0,
    p := if market = futuresStr then r.p else none }

/-- Fixed-size batches (`klines[i:i + batch_size]` for
`i in range(0, total, batch_size)`), with fuel for termination. -/
def chunksF {α : Type} : Nat → Nat → List α → List (List α)
  | 0, _, _ => []
  | _, _, [] => []
  | Nat.succ fuel, b, l => l.take b :: chunksF fuel b (l.drop b)

/-- Fixed-size batches of a list (meaningful for a positive batch size). -/
def chunks {α : Type} (b : Nat) (l : List α) : List (List α) :=
  chunksF l.length b l

/-- `DataMigrator.migrate_klines_table`: parse the name (failure yields a
failed result with the error text and no further processing of this unit);
in dry-run mode report only the source row count; otherwise read the source
rows ordered by timestamp, convert them, and insert them batch by batch,
accumulating the inserted counter (source: `migrate_to_dolphindb.py`, lines
110-200).  A zero batch size makes `range` raise, which the unit's handler
turns into a failed result. -/
def migrate_klines_table (s : DDBState) (tbl : LegacyKTable)
    (batch_size : Nat) (dry_run : Bool) : UnitResult × DDBState :=
  match parse_table_info tbl.name with
  | none =>
    ({ baseResult with
        success := false
        error := some (errCannotParse tbl.name) }, s)
  | some info =>
    if dry_run then
      ({ baseResult with
          table := some tbl.name
          market := some info.market
          code := some info.code
          frequency := some info.frequency
          count := some tbl.rows.length
          dry_run := true }, s)
    else
      have rows := sortSrcByDtAsc tbl.rows
      if rows.length = 0 then
        ({ baseResult with
            table := some tbl.name
            count := some 0
            message := some msgEmptySkip }, s)
      else if batch_size = 0 then
        ({ baseResult with
            success := false
            table := some tbl.name
            error := some msgBatchZero }, s)
      else
        have klines := rows.map (convertRow info.market)
        have stepped := (chunks batch_size klines).foldl
          (fun acc batch =>
            (klines_insert acc.1 info.market info.code info.frequency batch,
             acc.2 + batch.length)) (s, 0)
        ({ baseResult with
            table := some tbl.name
            market := some info.market
            code := some info.code
            frequency := some info.frequency
            count := some klines.length
            inserted := some stepped.2 }, stepped.1)

/-- The source table name `f"cl_stock_info_{market}"`. -/
def stock_info_table_name (market : Str) : Str :=
  ("cl_stock_info_".toList) ++ market

/-- `DataMigrator.migrate_stock_info`: skip (successfully) when the source
table does not exist; dry-run reports the count; an empty table is skipped;
otherwise the instruments are inserted through `stock_info_insert` (source:
`migrate_to_dolphindb.py`, lines 202-272). -/
def migrate_stock_info (src : LegacySource) (s : DDBState) (market : Str)
    (dry_run : Bool) : UnitResult × DDBState :=
  match src.stockTables.lookup (stock_info_table_name market) with
  | none =>
    ({ baseResult with
       message := some (msgStockAbsent (stock_info_table_name market)) }, s)
  | some rows =>
    if dry_run then
      ({ baseResult with
          table := some (stock_info_table_name market)
          count := some rows.length
          dry_run := true }, s)
    else if rows.length = 0 then
      ({ baseResult with
          table := some (stock_info_table_name market)
          count := some 0
          message := some msgEmptySkip }, s)
    else
      ({ baseResult with
          table := some (stock_info_table_name market)
          count := some rows.length
          inserted := some rows.length },
       stock_info_insert s market rows)

/-- The fixed cache table name `"cl_cache"`. -/
def clCacheStr : Str := "cl_cache".toList

/-- `DataMigrator.migrate_cache`: dry-run reports the count; an empty table
is skipped; otherwise every source cache row is replayed individually
through `cache_set` with its key, value and expiry (source:
`migrate_to_dolphindb.py`, lines 274-324). -/
def migrate_cache (src : LegacySource) (s : DDBState) (dry_run : Bool) :
    UnitResult × DDBState :=
  if dry_run then
    ({ baseResult with
        table := some clCacheStr
        count := some src.cacheRows.length
        dry_run := true }, s)
  else if src.cacheRows.length = 0 then
    ({ baseResult with
        table := some clCacheStr
        count := some 0
        message := some msgEmptySkip }, s)
  else
    ({ baseResult with
        table := some clCacheStr
        count := some src.cacheRows.length
        inserted := some src.cacheRows.length },
     src.cacheRows.foldl (fun st r => cache_set st r.k r.v r.expire) s)

/-- Discovery (`get_klines_tables`): SQL `LIKE '<market>_%'` — the literal
market, the `_` wildcard matching any single character, then anything. -/
def likeMarketPattern (market name : Str) : Bool :=
  decide (name.take market.length = market) &&
    decide (market.length < name.length)

/-- The allow-list filter: only applied when the caller's `codes` argument
is truthy (a non-empty list); a discovered table whose name does not parse
is silently discarded by this filter (source: `migrate_to_dolphindb.py`,
lines 347-353). -/
def filter_tables (codes : Option (List Str)) (tables : List LegacyKTable) :
    List LegacyKTable :=
  match codes with
  | none => tables
  | some cs =>
    if cs = [] then tables
    else tables.filter (fun t =>
      match parse_table_info t.name with
      | none => false
      | some info => decide (info.code ∈ cs))

/-- The migration loop over the discovered kline tables, threading the
target state and collecting the unit results in order. -/
def migrate_tables (s : DDBState) (tables : List LegacyKTable)
    (batch_size : Nat) (dry_run : Bool) : List UnitResult × DDBState :=
  match tables with
  | [] => ([], s)
  | t :: ts =>
    have st := migrate_klines_table s t batch_size dry_run
    have rest := migrate_tables st.2 ts batch_size dry_run
    (st.1 :: rest.1, rest.2)

/-- The outcome of one `migrate_market` call: the ordered result list, the
final target state, and how many times `migrate_cache` was invoked
(instrumentation of the call site at `migrate_to_dolphindb.py`, lines
370-373). -/
structure MigrateOutput where
  results : List UnitResult
  state : DDBState
  cacheCalls : Nat

/-- The A-share market token `"a"`. -/
def aStr : Str := "a".toList

/-- `DataMigrator.migrate_market`: instrument unit first, then the
discovered (and optionally allow-list-filtered) kline tables in order, and
finally — only when the market argument is `'a'` — the cache unit (source:
`migrate_to_dolphindb.py`, lines 326-390). -/
def migrate_market (src : LegacySource) (s : DDBState) (market : Str)
    (codes : Option (List Str)) (batch_size : Nat) (dry_run : Bool) :
    MigrateOutput :=
  have step0 := migrate_stock_info src s market dry_run
  have tables := filter_tables codes
    (src.ktables.filter (fun t => likeMarketPattern market t.name))
  have stepT := migrate_tables step0.2 tables batch_size dry_run
  if market = aStr then
    have stepC := migrate_cache src stepT.2 dry_run
    { results := step0.1 :: stepT.1 ++ [stepC.1], state := stepC.2,
      cacheCalls := 1 }
  else
    { results := step0.1 :: stepT.1, state := stepT.2, cacheCalls := 0 }

/-- One whole migration invocation: constructing the `DataMigrator` builds
the target store handle (`DolphinDB()` runs the destructive constructor),
then `migrate_market` runs (source: `migrate_to_dolphindb.py`, lines 41-52
and 402-438). -/
def migration_invocation (src : LegacySource) (s : DDBState) (market : Str)
    (codes : Option (List Str)) (batch_size : Nat) (dry_run : Bool) :
    MigrateOutput :=
  migrate_market src (dolphindb_init s) market codes batch_size dry_run

/-! ### Claim C7: cache-migration frequency and replay -/

/-- A legacy source holding one cache row and nothing else. -/
def srcCacheOnly : LegacySource :=
  { ktables := [], stockTables := [],
    cacheRows := [{ k := "k".toList, v := "v".toList, expire := 0 }] }

/-- C7 counterexample: for an invocation with market `"hk"` over a source
that holds cache rows, the cache-migration unit does not run at all (the
code guards it with `if market == 'a'`), contradicting "runs exactly once
per overall invocation (whatever market parameter is supplied)". -/
theorem c7_counterexample :
    ¬ ((migrate_market srcCacheOnly freshState ("hk".toList) none 1000
        true).cacheCalls = 1) := by
  decide

/-- C7 amended: the cache-migration unit runs exactly once when the supplied
market is `'a'` and never otherwise; whenever it runs in execution mode it
replays every source cache row individually through `cache_set`, preserving
the original key, value and expiry. -/
theorem c7_amended (src : LegacySource) (s : DDBState) (market : Str)
    (codes : Option (List Str)) (batch_size : Nat) (dry_run : Bool) :
    (migrate_market src s market codes batch_size dry_run).cacheCalls =
      (if market = aStr then 1 else 0) ∧
    (∀ (src2 : LegacySource) (s2 : DDBState),
      (migrate_cache src2 s2 false).2 =
        src2.cacheRows.foldl (fun st r => cache_set st r.k r.v r.expire) s2) := by
  constructor
  · unfold migrate_market
    by_cases hm : market = aStr
    · simp [hm]
    · simp [hm]
  · intro src2 s2
    unfold migrate_cache
    by_cases hz : src2.cacheRows.length = 0
    · have hnil : src2.cacheRows = [] := List.length_eq_zero.mp hz
      simp [hz, hnil]
    · simp [hz]

/-! ### Claim C1: dry-run write freedom -/

theorem migrate_klines_table_dry_state (s : DDBState) (tbl : LegacyKTable)
    (b : Nat) : (migrate_klines_table s tbl b true).2 = s := by
  unfold migrate_klines_table
  cases parse_table_info tbl.name with
  | none => rfl
  | some info => rfl

theorem migrate_tables_dry_state (s : DDBState) (tables : List LegacyKTable)
    (b : Nat) : (migrate_tables s tables b true).2 = s := by
  induction tables generalizing s with
  | nil => rfl
  | cons t ts ih =>
    unfold migrate_tables
    simp only []
    rw [migrate_klines_table_dry_state]
    exact ih s

theorem migrate_stock_info_dry_state (src : LegacySource) (s : DDBState)
    (market : Str) : (migrate_stock_info src s market true).2 = s := by
  unfold migrate_stock_info
  cases src.stockTables.lookup (stock_info_table_name market) with
  | none => rfl
  | some rows => rfl

theorem migrate_market_dry_state (src : LegacySource) (s : DDBState)
    (market : Str) (codes : Option (List Str)) (b : Nat) :
    (migrate_market src s market codes b true).state = s := by
  unfold migrate_market
  by_cases hm : market = aStr
  · simp [hm, migrate_cache, migrate_tables_dry_state,
      migrate_stock_info_dry_state]
  · simp [hm, migrate_tables_dry_state, migrate_stock_info_dry_state]

/-- C1 amended: in dry-run mode the pipeline itself performs no write — the
target state after the whole dry run equals the state right after handle
construction, and a parseable kline unit reports only its source row count
(a `count`, no `inserted` key) while leaving the state untouched.  The full
invocation is still not write-free: constructing the target handle erases
the store (see the counterexample and C10). -/
theorem c1_amended (src : LegacySource) (s : DDBState) (market : Str)
    (codes : Option (List Str)) (b : Nat) (tbl : LegacyKTable)
    (s2 : DDBState) (b2 : Nat) (hp : parse_table_info tbl.name ≠ none) :
    (migrate_market src s market codes b true).state = s ∧
    (migration_invocation src s market codes b true).state =
      dolphindb_init s ∧
    (migrate_klines_table s2 tbl b2 true).2 = s2 ∧
    (migrate_klines_table s2 tbl b2 true).1.count =
      some tbl.rows.length ∧
    (migrate_klines_table s2 tbl b2 true).1.inserted = none := by
  refine ⟨migrate_market_dry_state src s market codes b,
    migrate_market_dry_state src (dolphindb_init s) market codes b,
    migrate_klines_table_dry_state s2 tbl b2, ?_, ?_⟩
  · cases hpp : parse_table_info tbl.name with
    | none => exact absurd hpp hp
    | some info => simp [migrate_klines_table, hpp]
  · cases hpp : parse_table_info tbl.name with
    | none => exact absurd hpp hp
    | some info => simp [migrate_klines_table, hpp, baseResult]

/-- A parseable legacy table for the C1 witness. -/
def tblAXD : LegacyKTable := { name := "a_x_d".toList, rows := [] }

/-- C1 amended witness at a concrete input. -/
theorem c1_amended_witness :
    (migrate_market srcCacheOnly freshState ("hk".toList) none 1000
        true).state = freshState ∧
    (migration_invocation srcCacheOnly freshState ("hk".toList) none 1000
        true).state = dolphindb_init freshState ∧
    (migrate_klines_table freshState tblAXD 1000 true).2 = freshState ∧
    (migrate_klines_table freshState tblAXD 1000 true).1.count =
      some tblAXD.rows.length ∧
    (migrate_klines_table freshState tblAXD 1000 true).1.inserted = none :=
  c1_amended srcCacheOnly freshState ("hk".toList) none 1000 tblAXD
    freshState 1000 (by decide)

/-- A prior store state holding one cache entry. -/
def statePre : DDBState :=
  { ktables := fun _ => none,
    cache := [{ k := "k".toList, v := "v".toList, expire := 0 }],
    stock := [] }

/-- C1 counterexample: a dry-run invocation with market `'a'` over a store
that held one cache entry does not leave the target store's state equal to
its state before the run — constructing the target store handle inside the
invocation drops the database and recreates the cache and instrument
tables, erasing the entry. -/
theorem c1_counterexample :
    ¬ ((migration_invocation srcCacheOnly statePre aStr none 1000
        true).state = statePre) :=
  fun h => absurd (congrArg DDBState.cache h) (by decide)

/-! ### Claim C8: per-unit failure isolation -/

theorem insSrcByDt_length (r : SrcBar) (l : List SrcBar) :
    (insSrcByDt r l).length = l.length + 1 := by
  induction l with
  | nil => rfl
  | cons x xs ih =>
    by_cases h : r.dt ≤ x.dt
    · simp [insSrcByDt, h]
    · simp [insSrcByDt, h, ih]

theorem sortSrcByDtAsc_length (l : List SrcBar) :
    (sortSrcByDtAsc l).length = l.length := by
  induction l with
  | nil => rfl
  | cons x xs ih => simp [sortSrcByDtAsc, insSrcByDt_length, ih]

theorem migrate_stock_info_success (src : LegacySource) (s : DDBState)
    (market : Str) (dry : Bool) :
    (migrate_stock_info src s market dry).1.success = true := by
  unfold migrate_stock_info
  cases src.stockTables.lookup (stock_info_table_name market) with
  | none => rfl
  | some rows =>
    cases dry with
    | true => rfl
    | false =>
      by_cases hz : rows.length = 0
      · simp [hz, baseResult]
      · simp [hz, baseResult]

theorem migrate_cache_success (src : LegacySource) (s : DDBState)
    (dry : Bool) : (migrate_cache src s dry).1.success = true := by
  cases dry with
  | true => rfl
  | false =>
    by_cases hz : src.cacheRows.length = 0
    · simp [migrate_cache, hz, baseResult]
    · simp [migrate_cache, hz, baseResult]

theorem migrate_klines_table_fail (s : DDBState) (tbl : LegacyKTable)
    (b : Nat) (dry : Bool) (hp : parse_table_info tbl.name = none) :
    migrate_klines_table s tbl b dry =
      ({ baseResult with
          success := false
          error := some (errCannotParse tbl.name) }, s) := by
  unfold migrate_klines_table
  rw [hp]

theorem migrate_klines_table_ok (s : DDBState) (tbl : LegacyKTable)
    (b : Nat) (dry : Bool) (hb : ¬ b = 0)
    (hp : parse_table_info tbl.name ≠ none) :
    (migrate_klines_table s tbl b dry).1.success = true ∧
    (migrate_klines_table s tbl b dry).1.count = some tbl.rows.length := by
  cases hpp : parse_table_info tbl.name with
  | none => exact absurd hpp hp
  | some info =>
    cases dry with
    | true => simp [migrate_klines_table, hpp, baseResult]
    | false =>
      by_cases hz : (sortSrcByDtAsc tbl.rows).length = 0
      · have hz0 : tbl.rows.length = 0 := by
          rw [← sortSrcByDtAsc_length tbl.rows]
          exact hz
        simp [migrate_klines_table, hpp, hz, hz0, baseResult]
      · have hz0 : ¬ tbl.rows = [] := by
          intro hnil
          exact hz (by simp [hnil, sortSrcByDtAsc])
        simp [migrate_klines_table, hpp, hz, hz0, hb, baseResult,
          sortSrcByDtAsc_length]

/-- C8 amended: when no code allow-list is supplied, a discovered table
whose name cannot be parsed (fewer than 3 segments) is recorded as the run's
only failed unit, carrying its error text, and every other unit — the
instrument unit, the two parseable tables (with their correct source row
counts) and, for market `'a'`, the cache unit — is still processed and
reported successfully; with an allow-list in effect such tables are instead
silently discarded (see the counterexample). -/
theorem c8_amended (src : LegacySource) (market : Str)
    (t1 t2 t3 : LegacyKTable) (s : DDBState) (b : Nat) (dry : Bool)
    (hsk : src.ktables = [t1, t2, t3]) (hb : ¬ b = 0)
    (h1 : parse_table_info t1.name ≠ none)
    (h2 : parse_table_info t2.name = none)
    (h3 : parse_table_info t3.name ≠ none)
    (hf1 : likeMarketPattern market t1.name = true)
    (hf2 : likeMarketPattern market t2.name = true)
    (hf3 : likeMarketPattern market t3.name = true) :
    ((migrate_market src s market none b dry).results.filter
        (fun r => !r.success)).length = 1 ∧
    (∀ r ∈ (migrate_market src s market none b dry).results,
      r.success = false → r.error = some (errCannotParse t2.name)) ∧
    (∃ r, (migrate_market src s market none b dry).results.get? 1 = some r ∧
      r.success = true ∧ r.count = some t1.rows.length) ∧
    (∃ r, (migrate_market src s market none b dry).results.get? 3 = some r ∧
      r.success = true ∧ r.count = some t3.rows.length) := by
  have hflt : src.ktables.filter (fun t => likeMarketPattern market t.name) =
      [t1, t2, t3] := by
    rw [hsk]
    simp [List.filter, hf1, hf2, hf3]
  have ht2rw : ∀ s' : DDBState, migrate_klines_table s' t2 b dry =
      ({ baseResult with
          success := false
          error := some (errCannotParse t2.name) }, s') :=
    fun s' => migrate_klines_table_fail s' t2 b dry h2
  have ha1 : ∀ s' : DDBState,
      (migrate_klines_table s' t1 b dry).1.success = true :=
    fun s' => (migrate_klines_table_ok s' t1 b dry hb h1).1
  have ha1c : ∀ s' : DDBState,
      (migrate_klines_table s' t1 b dry).1.count = some t1.rows.length :=
    fun s' => (migrate_klines_table_ok s' t1 b dry hb h1).2
  have ha3 : ∀ s' : DDBState,
      (migrate_klines_table s' t3 b dry).1.success = true :=
    fun s' => (migrate_klines_table_ok s' t3 b dry hb h3).1
  have ha3c : ∀ s' : DDBState,
      (migrate_klines_table s' t3 b dry).1.count = some t3.rows.length :=
    fun s' => (migrate_klines_table_ok s' t3 b dry hb h3).2
  have hs0 : ∀ s' : DDBState,
      (migrate_stock_info src s' market dry).1.success = true :=
    fun s' => migrate_stock_info_success src s' market dry
  have hcs : ∀ s' : DDBState, (migrate_cache src s' dry).1.success = true :=
    fun s' => migrate_cache_success src s' dry
  by_cases hm : market = aStr
  · subst hm
    have hres : (migrate_market src s aStr none b dry).results =
        (migrate_stock_info src s aStr dry).1 ::
        (migrate_klines_table (migrate_stock_info src s aStr dry).2
          t1 b dry).1 ::
        ({ baseResult with
            success := false
            error := some (errCannotParse t2.name) } : UnitResult) ::
        (migrate_klines_table
          (migrate_klines_table (migrate_stock_info src s aStr dry).2
            t1 b dry).2 t3 b dry).1 ::
        [(migrate_cache src
          (migrate_klines_table
            (migrate_klines_table (migrate_stock_info src s aStr dry).2
              t1 b dry).2 t3 b dry).2 dry).1] := by
      simp [migrate_market, migrate_tables, filter_tables, hflt, ht2rw]
    rw [hres]
    refine ⟨?_, ?_, ⟨_, rfl, ha1 _, ha1c _⟩, ⟨_, rfl, ha3 _, ha3c _⟩⟩
    · simp [List.filter_cons, ha1, ha3, hs0, hcs, baseResult]
    · intro r hr hfail
      simp only [List.mem_cons, List.not_mem_nil, or_false] at hr
      rcases hr with rfl | rfl | rfl | rfl | rfl
      · rw [hs0] at hfail
        cases hfail
      · rw [ha1] at hfail
        cases hfail
      · simp [baseResult]
      · rw [ha3] at hfail
        cases hfail
      · rw [hcs] at hfail
        cases hfail
  · have hres : (migrate_market src s market none b dry).results =
        (migrate_stock_info src s market dry).1 ::
        (migrate_klines_table (migrate_stock_info src s market dry).2
          t1 b dry).1 ::
        ({ baseResult with
            success := false
            error := some (errCannotParse t2.name) } : UnitResult) ::
        [(migrate_klines_table
          (migrate_klines_table (migrate_stock_info src s market dry).2
            t1 b dry).2 t3 b dry).1] := by
      simp [migrate_market, migrate_tables, filter_tables, hflt, hm, ht2rw]
    rw [hres]
    refine ⟨?_, ?_, ⟨_, rfl, ha1 _, ha1c _⟩, ⟨_, rfl, ha3 _, ha3c _⟩⟩
    · simp [List.filter_cons, ha1, ha3, hs0, baseResult]
    · intro r hr hfail
      simp only [List.mem_cons, List.not_mem_nil, or_false] at hr
      rcases hr with rfl | rfl | rfl | rfl
      · rw [hs0] at hfail
        cases hfail
      · rw [ha1] at hfail
        cases hfail
      · simp [baseResult]
      · rw [ha3] at hfail
        cases hfail

/-- Parseable legacy table `a_x_d` for C8. -/
def tAXD : LegacyKTable := { name := "a_x_d".toList, rows := [] }

/-- Unparseable legacy table `ab` (one segment) that still matches the
`LIKE 'a_%'` discovery pattern (`_` is the single-character wildcard). -/
def tAB : LegacyKTable := { name := "ab".toList, rows := [] }

/-- Parseable legacy table `a_y_d` for C8. -/
def tAYD : LegacyKTable := { name := "a_y_d".toList, rows := [] }

/-- A legacy source discovering exactly the three tables above. -/
def srcThree : LegacySource :=
  { ktables := [tAXD, tAB, tAYD], stockTables := [], cacheRows := [] }

/-- C8 amended witness at a concrete input (no allow-list, dry run). -/
theorem c8_amended_witness :
    ((migrate_market srcThree freshState aStr none 1000 true).results.filter
        (fun r => !r.success)).length = 1 ∧
    (∀ r ∈ (migrate_market srcThree freshState aStr none 1000 true).results,
      r.success = false → r.error = some (errCannotParse tAB.name)) ∧
    (∃ r, (migrate_market srcThree freshState aStr none 1000
        true).results.get? 1 = some r ∧
      r.success = true ∧ r.count = some tAXD.rows.length) ∧
    (∃ r, (migrate_market srcThree freshState aStr none 1000
        true).results.get? 3 = some r ∧
      r.success = true ∧ r.count = some tAYD.rows.length) :=
  c8_amended srcThree aStr tAXD tAB tAYD freshState 1000 true rfl
    (by decide) (by decide) (by decide) (by decide)
    (by decide) (by decide) (by decide)

/-- C8 counterexample: with a code allow-list in effect (`codes = [x, y]`),
the discovered table `ab`, whose name cannot be parsed, is silently
discarded by the filtering step, so the run reports zero failed units — the
claim requires it to be recorded as a failed unit with its error text. -/
theorem c8_counterexample :
    ((migrate_market srcThree freshState aStr
        (some [("x".toList), ("y".toList)]) 1000 true).results.filter
          (fun r => !r.success)).length = 0 ∧
    ¬ (((migrate_market srcThree freshState aStr
        (some [("x".toList), ("y".toList)]) 1000 true).results.filter
          (fun r => !r.success)).length = 1) := by
  constructor
  · rfl
  · decide
